import Mathlib

/-!
Verification of the Frappe and Rocket.Chat handler adapters
(`frappe_handler.py`, `rocket_chat_handler.py`) from the mindsdb
integrations tree.  Python strings are modelled as `List Char`
(for the JSON machinery) or `String` (for plain identifiers), Python
dicts as association lists or option-typed records, exceptions as
`Except`, and the vendor clients (whose sources live outside this
fragment) as environments of pure functions.  Client identity is
tracked with a construction counter so that memoization claims can
speak about "the same client object".
-/

set_option maxHeartbeats 1000000

namespace Json

/-- JSON values as produced and consumed by the Python `json` module,
restricted to the shapes this adapter exchanges (no floats). -/
inductive JVal where
  | null : JVal
  | bool (b : Bool) : JVal
  | num (n : Int) : JVal
  | str (s : List Char) : JVal
  | arr (xs : List JVal) : JVal
  | obj (kvs : List (List Char × JVal)) : JVal

/-- Opening brace character (written numerically). -/
def lbrace : Char := Char.ofNat 123

/-- Closing brace character (written numerically). -/
def rbrace : Char := Char.ofNat 125

/-- Decimal digit character for a digit value. -/
def digitChar (d : Nat) : Char := Char.ofNat (48 + d)

/-- Digit value of a decimal digit character. -/
def charDigit (c : Char) : Nat := c.toNat - 48

/-- Decimal digit test. -/
def isDig (c : Char) : Bool := 48 ≤ c.toNat && c.toNat ≤ 57

/-- Fueled digit expansion (structural, so it evaluates in the kernel). -/
def natCharsF : Nat → Nat → List Char
  | 0, _ => []
  | fuel + 1, m =>
    if m < 10 then [digitChar m]
    else natCharsF fuel (m / 10) ++ [digitChar (m % 10)]

/-- The decimal digits of a natural number, most significant first. -/
def natChars (m : Nat) : List Char := natCharsF (m + 1) m

/-- Rendering of a Python int, as `json.dumps` prints it. -/
def intChars (n : Int) : List Char :=
  if n < 0 then '-' :: natChars n.natAbs else natChars n.toNat

/-- String-character escaping used by `json.dumps` (quote and backslash;
other characters in the safe printable range pass through). -/
def escChar (c : Char) : List Char :=
  if c = '"' then ['\\', '"']
  else if c = '\\' then ['\\', '\\']
  else [c]

/-- Escape a whole string body. -/
def escList : List Char → List Char
  | [] => []
  | c :: cs => escChar c ++ escList cs

mutual

/-- `json.dumps` with the default separators, on the value grammar above. -/
def dumpVal : JVal → List Char
  | .null => "null".data
  | .bool true => "true".data
  | .bool false => "false".data
  | .num n => intChars n
  | .str s => '"' :: (escList s ++ ['"'])
  | .arr [] => ['[', ']']
  | .arr (x :: xs) => '[' :: ((dumpVal x ++ dumpListTail xs) ++ [']'])
  | .obj [] => [lbrace, rbrace]
  | .obj (e :: es) => lbrace :: ((dumpEntry e ++ dumpObjTail es) ++ [rbrace])

/-- Remaining array items, each preceded by `", "`. -/
def dumpListTail : List JVal → List Char
  | [] => []
  | x :: xs => ',' :: ' ' :: (dumpVal x ++ dumpListTail xs)

/-- One object entry: quoted key, `": "`, value. -/
def dumpEntry : List Char × JVal → List Char
  | (k, v) => '"' :: (escList k ++ ('"' :: ':' :: ' ' :: dumpVal v))

/-- Remaining object entries, each preceded by `", "`. -/
def dumpObjTail : List (List Char × JVal) → List Char
  | [] => []
  | e :: es => ',' :: ' ' :: (dumpEntry e ++ dumpObjTail es)

end

/-- A string whose characters are printable ASCII: exactly the strings
`json.dumps` renders without `\uXXXX` or control escapes, so the model
of `dumpVal` is faithful on them. -/
def safeStr (s : List Char) : Bool := s.all fun c => 32 ≤ c.toNat && c.toNat ≤ 126

mutual

/-- Well-formed value: every string (and key) is printable ASCII. -/
def wfJ : JVal → Bool
  | .null => true
  | .bool _ => true
  | .num _ => true
  | .str s => safeStr s
  | .arr xs => wfList xs
  | .obj kvs => wfEntries kvs

def wfList : List JVal → Bool
  | [] => true
  | x :: xs => wfJ x && wfList xs

def wfEntries : List (List Char × JVal) → Bool
  | [] => true
  | (k, v) :: es => safeStr k && (wfJ v && wfEntries es)

end

mutual

/-- Parser-fuel measure of a value. -/
def sizeJ : JVal → Nat
  | .null => 1
  | .bool _ => 1
  | .num _ => 1
  | .str _ => 1
  | .arr xs => 1 + sizeL xs
  | .obj kvs => 1 + sizeKL kvs

def sizeL : List JVal → Nat
  | [] => 0
  | x :: xs => 1 + sizeJ x + sizeL xs

def sizeKL : List (List Char × JVal) → Nat
  | [] => 0
  | (_, v) :: es => 1 + sizeJ v + sizeKL es

end

/-- Skip space characters. -/
def skipWs : List Char → List Char
  | [] => []
  | c :: cs => if c = ' ' then skipWs cs else c :: cs

/-- Strip an expected literal prefix. -/
def stripPre : List Char → List Char → Option (List Char)
  | [], cs => some cs
  | p :: ps, c :: cs => if c = p then stripPre ps cs else none
  | _ :: _, [] => none

/-- Unescape one escaped string character. -/
def unesc (c : Char) : Option Char :=
  if c = '"' then some '"'
  else if c = '\\' then some '\\'
  else none

/-- Parse a string body up to the closing quote. -/
def parseStringBody : List Char → Option (List Char × List Char)
  | [] => none
  | c :: rest =>
    if c = '"' then some ([], rest)
    else if c = '\\' then
      match rest with
      | [] => none
      | e :: rest2 =>
        match unesc e with
        | none => none
        | some u =>
          match parseStringBody rest2 with
          | none => none
          | some (s, r) => some (u :: s, r)
    else
      match parseStringBody rest with
      | none => none
      | some (s, r) => some (c :: s, r)

/-- Take the leading run of decimal digits. -/
def takeDigits : List Char → List Char × List Char
  | [] => ([], [])
  | c :: cs =>
    if isDig c then
      let (ds, r) := takeDigits cs
      (c :: ds, r)
    else ([], c :: cs)

/-- Value of a digit run, most significant first. -/
def natOfDigits (ds : List Char) : Nat := ds.foldl (fun a c => a * 10 + charDigit c) 0

mutual

/-- Fueled JSON value parser (prefix semantics: returns the value and
the unconsumed remainder). -/
def parseVal : Nat → List Char → Option (JVal × List Char)
  | 0, _ => none
  | _ + 1, [] => none
  | fuel + 1, c :: rest =>
    if c = 'n' then (stripPre "ull".data rest).map (fun r => (.null, r))
    else if c = 't' then (stripPre "rue".data rest).map (fun r => (.bool true, r))
    else if c = 'f' then (stripPre "alse".data rest).map (fun r => (.bool false, r))
    else if c = '"' then
      match parseStringBody rest with
      | none => none
      | some (s, r) => some (.str s, r)
    else if c = '[' then
      let r := skipWs rest
      if r.head? = some ']' then some (.arr [], r.tail)
      else
        match parseItems fuel r with
        | none => none
        | some (xs, r2) => some (.arr xs, r2)
    else if c = lbrace then
      let r := skipWs rest
      if r.head? = some rbrace then some (.obj [], r.tail)
      else
        match parseEntries fuel r with
        | none => none
        | some (kvs, r2) => some (.obj kvs, r2)
    else if c = '-' then
      match takeDigits rest with
      | ([], _) => none
      | (ds, r) => some (.num (-(Int.ofNat (natOfDigits ds))), r)
    else if isDig c then
      match takeDigits rest with
      | (ds, r) => some (.num (Int.ofNat (natOfDigits (c :: ds))), r)
    else none

/-- Parse one or more comma-separated array items and the closing bracket. -/
def parseItems : Nat → List Char → Option (List JVal × List Char)
  | 0, _ => none
  | fuel + 1, cs =>
    match parseVal fuel cs with
    | none => none
    | some (v, r) =>
      match skipWs r with
      | [] => none
      | c :: r2 =>
        if c = ']' then some ([v], r2)
        else if c = ',' then
          match parseItems fuel (skipWs r2) with
          | none => none
          | some (vs, r3) => some (v :: vs, r3)
        else none

/-- Parse one or more comma-separated object entries and the closing brace. -/
def parseEntries : Nat → List Char → Option (List (List Char × JVal) × List Char)
  | 0, _ => none
  | fuel + 1, cs =>
    match cs with
    | [] => none
    | c0 :: r0 =>
      if c0 = '"' then
        match parseStringBody r0 with
        | none => none
        | some (k, r1) =>
          match skipWs r1 with
          | [] => none
          | c1 :: r2 =>
            if c1 = ':' then
              match parseVal fuel (skipWs r2) with
              | none => none
              | some (v, r3) =>
                match skipWs r3 with
                | [] => none
                | c :: r4 =>
                  if c = rbrace then some ([(k, v)], r4)
                  else if c = ',' then
                    match parseEntries fuel (skipWs r4) with
                    | none => none
                    | some (kvs, r5) => some ((k, v) :: kvs, r5)
                  else none
            else none
      else none

end

/-- `json.loads`: parse a complete document, rejecting trailing garbage. -/
def loads (cs : List Char) : Option JVal :=
  match parseVal (cs.length + 1) (skipWs cs) with
  | none => none
  | some (v, rest) => if skipWs rest = [] then some v else none

/-- `json.dumps` at the top level. -/
def dumps (v : JVal) : List Char := dumpVal v

/-- Characters that may legally follow a serialized value inside a
document: a separator, a closing bracket, a closing brace, or the end. -/
def followOk : List Char → Bool
  | [] => true
  | c :: _ => c = ',' || c = ']' || c = rbrace

/-- The head of the remainder is not a digit. -/
def headNotDig : List Char → Bool
  | [] => true
  | c :: _ => !isDig c

/-- A character a serialized value can start with: never a space,
separator, closing bracket/brace, or colon. -/
def GoodHead (c : Char) : Prop :=
  c ≠ ' ' ∧ c ≠ ']' ∧ c ≠ ',' ∧ c ≠ rbrace ∧ c ≠ ':'

theorem sizeJ_pos (v : JVal) : 1 ≤ sizeJ v := by
  cases v <;> simp [sizeJ]

theorem digitChar_facts (d : Nat) (h : d < 10) :
    isDig (digitChar d) = true ∧ charDigit (digitChar d) = d := by
  interval_cases d <;> exact ⟨by decide, by decide⟩

theorem isDig_bounds (c : Char) (h : isDig c = true) :
    48 ≤ c.toNat ∧ c.toNat ≤ 57 := by
  simpa [isDig] using h

theorem isDig_ne (c : Char) (h : isDig c = true) (d : Char)
    (hd : isDig d = false) : c ≠ d := by
  intro e
  rw [e] at h
  rw [h] at hd
  cases hd

theorem isDig_goodHead (c : Char) (h : isDig c = true) : GoodHead c :=
  ⟨isDig_ne c h ' ' (by decide), isDig_ne c h ']' (by decide),
   isDig_ne c h ',' (by decide), isDig_ne c h rbrace (by decide),
   isDig_ne c h ':' (by decide)⟩

theorem natOfDigits_snoc (ds : List Char) (c : Char) :
    natOfDigits (ds ++ [c]) = natOfDigits ds * 10 + charDigit c := by
  simp [natOfDigits, List.foldl_append]

theorem natCharsF_spec :
    ∀ fuel m, m < fuel →
      natCharsF fuel m ≠ [] ∧ (∀ c ∈ natCharsF fuel m, isDig c = true) ∧
        natOfDigits (natCharsF fuel m) = m := by
  intro fuel
  induction fuel with
  | zero => intro m hm; omega
  | succ fuel ih =>
    intro m hm
    by_cases h10 : m < 10
    · simp only [natCharsF, if_pos h10]
      refine ⟨by simp, ?_, ?_⟩
      · intro c hc
        simp only [List.mem_singleton] at hc
        subst hc
        exact (digitChar_facts m h10).1
      · show natOfDigits ([] ++ [digitChar m]) = m
        rw [natOfDigits_snoc]
        simp [natOfDigits, (digitChar_facts m h10).2]
    · have hdiv : m / 10 < fuel := by
        have h1 : m / 10 < m := Nat.div_lt_self (by omega) (by omega)
        omega
      obtain ⟨hne, hdig, hval⟩ := ih (m / 10) hdiv
      simp only [natCharsF, if_neg h10]
      have hm10 : m % 10 < 10 := Nat.mod_lt _ (by omega)
      refine ⟨by simp, ?_, ?_⟩
      · intro c hc
        rcases List.mem_append.mp hc with h | h
        · exact hdig c h
        · simp only [List.mem_singleton] at h
          subst h
          exact (digitChar_facts _ hm10).1
      · rw [natOfDigits_snoc, hval, (digitChar_facts _ hm10).2]
        omega

theorem natChars_spec (m : Nat) :
    natChars m ≠ [] ∧ (∀ c ∈ natChars m, isDig c = true) ∧
      natOfDigits (natChars m) = m :=
  natCharsF_spec (m + 1) m (by omega)

theorem takeDigits_append (ds rest : List Char)
    (hds : ∀ c ∈ ds, isDig c = true) (hrest : headNotDig rest = true) :
    takeDigits (ds ++ rest) = (ds, rest) := by
  induction ds with
  | nil =>
    cases rest with
    | nil => rfl
    | cons c cs =>
      simp only [headNotDig, Bool.not_eq_true'] at hrest
      simp [takeDigits, hrest]
  | cons c ds ih =>
    have hc : isDig c = true := hds c (by simp)
    have ih2 := ih (fun d hd => hds d (by simp [hd]))
    simp [takeDigits, hc, ih2]

theorem skipWs_cons (c : Char) (cs : List Char) (h : ¬ c = ' ') :
    skipWs (c :: cs) = c :: cs := by
  simp [skipWs, h]

theorem followOk_headNotDig (rest : List Char) (h : followOk rest = true) :
    headNotDig rest = true := by
  cases rest with
  | nil => rfl
  | cons c cs =>
    simp only [followOk, Bool.or_eq_true, decide_eq_true_eq] at h
    have : isDig c = false := by
      rcases h with (h | h) | h <;> subst h <;> decide
    simp [headNotDig, this]

theorem parseStringBody_esc (s rest : List Char) :
    parseStringBody (escList s ++ ('"' :: rest)) = some (s, rest) := by
  induction s with
  | nil =>
    simp only [escList, List.nil_append]
    rw [parseStringBody.eq_def]
    simp
  | cons c s ih =>
    by_cases h1 : c = '"'
    · subst h1
      simp only [escList, escChar, if_pos rfl, List.append_assoc, List.cons_append,
        List.nil_append]
      rw [parseStringBody.eq_def]
      simp [unesc, ih]
    · by_cases h2 : c = '\\'
      · subst h2
        simp only [escList, escChar, h1, if_neg, if_pos rfl, List.append_assoc,
          List.cons_append, List.nil_append, if_false, decide_False]
        rw [parseStringBody.eq_def]
        simp [unesc, ih]
      · simp only [escList, escChar, h1, h2, if_neg, List.cons_append, List.nil_append,
          List.append_assoc, if_false]
        rw [parseStringBody.eq_def]
        simp [h1, h2, ih]

theorem dumpVal_head (v : JVal) :
    ∃ c cs, dumpVal v = c :: cs ∧ GoodHead c := by
  cases v with
  | null => exact ⟨'n', _, rfl, by decide, by decide, by decide, by decide, by decide⟩
  | bool b =>
    cases b
    · exact ⟨'f', _, rfl, by decide, by decide, by decide, by decide, by decide⟩
    · exact ⟨'t', _, rfl, by decide, by decide, by decide, by decide, by decide⟩
  | num n =>
    show ∃ c cs, intChars n = c :: cs ∧ GoodHead c
    unfold intChars
    by_cases hn : n < 0
    · exact ⟨'-', _, by rw [if_pos hn], by decide, by decide, by decide, by decide, by decide⟩
    · rw [if_neg hn]
      obtain ⟨hne, hdig, -⟩ := natChars_spec n.toNat
      cases h : natChars n.toNat with
      | nil => exact absurd h hne
      | cons c cs =>
        exact ⟨c, cs, rfl, isDig_goodHead c (hdig c (by rw [h]; simp))⟩
  | str s => exact ⟨'"', _, rfl, by decide, by decide, by decide, by decide, by decide⟩
  | arr xs =>
    cases xs with
    | nil => exact ⟨'[', _, rfl, by decide, by decide, by decide, by decide, by decide⟩
    | cons x xs => exact ⟨'[', _, rfl, by decide, by decide, by decide, by decide, by decide⟩
  | obj kvs =>
    cases kvs with
    | nil => exact ⟨lbrace, _, rfl, by decide, by decide, by decide, by decide, by decide⟩
    | cons e es => exact ⟨lbrace, _, rfl, by decide, by decide, by decide, by decide, by decide⟩

theorem isDig_dispatch (c : Char) (h : isDig c = true) :
    c ≠ 'n' ∧ c ≠ 't' ∧ c ≠ 'f' ∧ c ≠ '"' ∧ c ≠ '[' ∧ c ≠ lbrace ∧ c ≠ '-' :=
  ⟨isDig_ne c h 'n' (by decide), isDig_ne c h 't' (by decide),
   isDig_ne c h 'f' (by decide), isDig_ne c h '"' (by decide),
   isDig_ne c h '[' (by decide), isDig_ne c h lbrace (by decide),
   isDig_ne c h '-' (by decide)⟩

theorem skipWs_dump (v : JVal) (t : List Char) :
    skipWs (dumpVal v ++ t) = dumpVal v ++ t := by
  obtain ⟨c, cs, h, hg⟩ := dumpVal_head v
  rw [h, List.cons_append, skipWs_cons _ _ hg.1]

theorem dumpEntry_shape (e : List Char × JVal) :
    dumpEntry e = '"' :: (escList e.1 ++ ('"' :: ':' :: ' ' :: dumpVal e.2)) := by
  obtain ⟨k, v⟩ := e
  rfl

theorem parseVal_cons (fuel : Nat) (c : Char) (rest : List Char) :
    parseVal (fuel + 1) (c :: rest) =
      (if c = 'n' then (stripPre "ull".data rest).map (fun r => (JVal.null, r))
      else if c = 't' then (stripPre "rue".data rest).map (fun r => (JVal.bool true, r))
      else if c = 'f' then (stripPre "alse".data rest).map (fun r => (JVal.bool false, r))
      else if c = '"' then
        match parseStringBody rest with
        | none => none
        | some (s, r) => some (JVal.str s, r)
      else if c = '[' then
        let r := skipWs rest
        if r.head? = some ']' then some (JVal.arr [], r.tail)
        else
          match parseItems fuel r with
          | none => none
          | some (xs, r2) => some (JVal.arr xs, r2)
      else if c = lbrace then
        let r := skipWs rest
        if r.head? = some rbrace then some (JVal.obj [], r.tail)
        else
          match parseEntries fuel r with
          | none => none
          | some (kvs, r2) => some (JVal.obj kvs, r2)
      else if c = '-' then
        match takeDigits rest with
        | ([], _) => none
        | (ds, r) => some (JVal.num (-(Int.ofNat (natOfDigits ds))), r)
      else if isDig c then
        match takeDigits rest with
        | (ds, r) => some (JVal.num (Int.ofNat (natOfDigits (c :: ds))), r)
      else none) := rfl

theorem parseItems_succ (fuel : Nat) (cs : List Char) :
    parseItems (fuel + 1) cs =
      (match parseVal fuel cs with
      | none => none
      | some (v, r) =>
        match skipWs r with
        | [] => none
        | c :: r2 =>
          if c = ']' then some ([v], r2)
          else if c = ',' then
            match parseItems fuel (skipWs r2) with
            | none => none
            | some (vs, r3) => some (v :: vs, r3)
          else none) := rfl

theorem parseEntries_succ (fuel : Nat) (cs : List Char) :
    parseEntries (fuel + 1) cs =
      (match cs with
      | [] => none
      | c0 :: r0 =>
        if c0 = '"' then
          match parseStringBody r0 with
          | none => none
          | some (k, r1) =>
            match skipWs r1 with
            | [] => none
            | c1 :: r2 =>
              if c1 = ':' then
                match parseVal fuel (skipWs r2) with
                | none => none
                | some (v, r3) =>
                  match skipWs r3 with
                  | [] => none
                  | c :: r4 =>
                    if c = rbrace then some ([(k, v)], r4)
                    else if c = ',' then
                      match parseEntries fuel (skipWs r4) with
                      | none => none
                      | some (kvs, r5) => some ((k, v) :: kvs, r5)
                    else none
              else none
        else none) := rfl

/-- Main round-trip induction: a serialized value, item list or entry
list parses back exactly, leaving the remainder untouched. -/
theorem parse_dump (fuel : Nat) :
    (∀ v rest, sizeJ v ≤ fuel → followOk rest = true →
      parseVal fuel (dumpVal v ++ rest) = some (v, rest)) ∧
    (∀ x xs rest, sizeL (x :: xs) ≤ fuel →
      parseItems fuel (dumpVal x ++ (dumpListTail xs ++ (']' :: rest))) =
        some (x :: xs, rest)) ∧
    (∀ k v es rest, sizeKL ((k, v) :: es) ≤ fuel →
      parseEntries fuel (dumpEntry (k, v) ++ (dumpObjTail es ++ (rbrace :: rest))) =
        some ((k, v) :: es, rest)) := by
  induction fuel with
  | zero =>
    refine ⟨?_, ?_, ?_⟩
    · intro v rest hs _
      have := sizeJ_pos v
      omega
    · intro x xs rest hs
      rw [sizeL] at hs
      omega
    · intro k v es rest hs
      rw [sizeKL] at hs
      omega
  | succ fuel ih =>
    obtain ⟨ihV, ihI, ihE⟩ := ih
    refine ⟨?_, ?_, ?_⟩
    · intro v rest hs hfo
      cases v with
      | null =>
        rw [show dumpVal .null = ['n', 'u', 'l', 'l'] from rfl]
        simp only [List.cons_append, List.nil_append]
        rw [parseVal_cons]
        simp [stripPre]
      | bool b =>
        cases b
        · rw [show dumpVal (.bool false) = ['f', 'a', 'l', 's', 'e'] from rfl]
          simp only [List.cons_append, List.nil_append]
          rw [parseVal_cons]
          simp [stripPre]
        · rw [show dumpVal (.bool true) = ['t', 'r', 'u', 'e'] from rfl]
          simp only [List.cons_append, List.nil_append]
          rw [parseVal_cons]
          simp [stripPre]
      | num n =>
        have hfd := followOk_headNotDig rest hfo
        rw [show dumpVal (.num n) = intChars n from rfl]
        unfold intChars
        by_cases hn : n < 0
        · rw [if_pos hn]
          obtain ⟨hne, hdig, hval⟩ := natChars_spec n.natAbs
          have ht := takeDigits_append _ _ hdig hfd
          rw [List.cons_append, parseVal_cons]
          rw [if_neg (by decide : ¬('-' = 'n')), if_neg (by decide : ¬('-' = 't')),
            if_neg (by decide : ¬('-' = 'f')), if_neg (by decide : ¬('-' = '"')),
            if_neg (by decide : ¬('-' = '[')), if_neg (by decide : ¬('-' = lbrace)),
            if_pos rfl]
          rw [ht]
          cases hnc : natChars n.natAbs with
          | nil => exact absurd hnc hne
          | cons c ds =>
            rw [hnc] at hval
            have hv2 : -((natOfDigits (c :: ds) : Int)) = n := by
              rw [hval]
              omega
            simp [hv2]
        · rw [if_neg hn]
          obtain ⟨hne, hdig, hval⟩ := natChars_spec n.toNat
          cases hnc : natChars n.toNat with
          | nil => exact absurd hnc hne
          | cons c ds =>
            rw [hnc] at hdig hval
            have hc : isDig c = true := hdig c (by simp)
            have hds : ∀ d ∈ ds, isDig d = true := fun d hd => hdig d (by simp [hd])
            obtain ⟨d1, d2, d3, d4, d5, d6, d7⟩ := isDig_dispatch c hc
            have ht := takeDigits_append _ _ hds hfd
            rw [List.cons_append, parseVal_cons]
            rw [if_neg d1, if_neg d2, if_neg d3, if_neg d4, if_neg d5, if_neg d6,
              if_neg d7, if_pos hc]
            rw [ht]
            have hv2 : ((natOfDigits (c :: ds) : Int)) = n := by
              rw [hval]
              omega
            simp [hv2]
      | str s =>
        rw [show dumpVal (.str s) = '"' :: (escList s ++ ['"']) from rfl]
        rw [List.cons_append, List.append_assoc, List.singleton_append, parseVal_cons]
        simp [parseStringBody_esc]
      | arr xs =>
        cases xs with
        | nil =>
          rw [show dumpVal (.arr []) = ['[', ']'] from rfl]
          simp only [List.cons_append, List.nil_append]
          rw [parseVal_cons]
          simp [skipWs]
        | cons x xs =>
          have hI := ihI x xs rest (by rw [sizeJ] at hs; omega)
          rw [show dumpVal (.arr (x :: xs)) =
            '[' :: ((dumpVal x ++ dumpListTail xs) ++ [']']) from rfl]
          rw [List.cons_append, List.append_assoc, List.append_assoc,
            List.singleton_append, parseVal_cons]
          have hsk := skipWs_dump x (dumpListTail xs ++ (']' :: rest))
          obtain ⟨c, cs, hdx, hg⟩ := dumpVal_head x
          have h1 : (dumpVal x).head? ≠ some ']' := by
            rw [hdx]
            simp [hg.2.1]
          have h2 : dumpVal x ≠ [] := by
            rw [hdx]
            simp
          simp [hsk, hI, h1, h2]
      | obj kvs =>
        cases kvs with
        | nil =>
          rw [show dumpVal (.obj []) = [lbrace, rbrace] from rfl]
          simp only [List.cons_append, List.nil_append]
          rw [parseVal_cons]
          rw [if_neg (by decide : ¬(lbrace = 'n')), if_neg (by decide : ¬(lbrace = 't')),
            if_neg (by decide : ¬(lbrace = 'f')), if_neg (by decide : ¬(lbrace = '"')),
            if_neg (by decide : ¬(lbrace = '[')), if_pos rfl]
          rw [skipWs_cons _ _ (by decide)]
          simp
        | cons e es =>
          obtain ⟨k, v⟩ := e
          have hE := ihE k v es rest (by rw [sizeJ] at hs; omega)
          rw [show dumpVal (.obj ((k, v) :: es)) =
            lbrace :: ((dumpEntry (k, v) ++ dumpObjTail es) ++ [rbrace]) from rfl]
          rw [List.cons_append, List.append_assoc, List.append_assoc,
            List.singleton_append, parseVal_cons]
          have hsk : skipWs (dumpEntry (k, v) ++ (dumpObjTail es ++ (rbrace :: rest))) =
              dumpEntry (k, v) ++ (dumpObjTail es ++ (rbrace :: rest)) := by
            rw [dumpEntry_shape, List.cons_append, skipWs_cons _ _ (by decide)]
          have hE2 := hE
          simp only [dumpEntry_shape, List.cons_append, List.append_assoc] at hE2
          rw [if_neg (by decide : ¬(lbrace = 'n')), if_neg (by decide : ¬(lbrace = 't')),
            if_neg (by decide : ¬(lbrace = 'f')), if_neg (by decide : ¬(lbrace = '"')),
            if_neg (by decide : ¬(lbrace = '[')), if_pos rfl]
          simp [dumpEntry_shape, skipWs_cons, hE2]
          decide
    · intro x xs rest hs
      have hfo2 : followOk (dumpListTail xs ++ (']' :: rest)) = true := by
        cases xs <;> rfl
      have hV := ihV x (dumpListTail xs ++ (']' :: rest)) (by rw [sizeL] at hs; omega) hfo2
      rw [parseItems_succ, hV]
      cases xs with
      | nil => simp [dumpListTail, skipWs]
      | cons y ys =>
        have hI2 := ihI y ys rest (by rw [sizeL, sizeL] at hs; rw [sizeL]; omega)
        simp [dumpListTail, skipWs, skipWs_dump, hI2]
    · intro k v es rest hs
      rw [dumpEntry_shape]
      simp only [List.cons_append, List.append_assoc, List.nil_append]
      rw [parseEntries_succ]
      cases es with
      | nil =>
        have hV := ihV v (rbrace :: rest) (by rw [sizeKL] at hs; omega) (by rfl)
        have hps := parseStringBody_esc k
          (':' :: ' ' :: (dumpVal v ++ (dumpObjTail [] ++ (rbrace :: rest))))
        simp only [dumpObjTail, List.nil_append] at hps ⊢
        have hrs : ¬(rbrace = ' ') := by decide
        simp [hps, skipWs, skipWs_dump, hV, hrs]
      | cons e2 es2 =>
        obtain ⟨k2, v2⟩ := e2
        have hE2 := ihE k2 v2 es2 rest (by rw [sizeKL, sizeKL] at hs; rw [sizeKL]; omega)
        have hV := ihV v (dumpObjTail ((k2, v2) :: es2) ++ (rbrace :: rest))
          (by rw [sizeKL] at hs; omega) (by rfl)
        have hps := parseStringBody_esc k
          (':' :: ' ' :: (dumpVal v ++ (dumpObjTail ((k2, v2) :: es2) ++ (rbrace :: rest))))
        have hskE : ∀ t : List Char, skipWs (dumpEntry (k2, v2) ++ t) = dumpEntry (k2, v2) ++ t := by
          intro t
          rw [dumpEntry_shape, List.cons_append, skipWs_cons _ _ (by decide)]
        rw [show dumpObjTail ((k2, v2) :: es2) =
          ',' :: ' ' :: (dumpEntry (k2, v2) ++ dumpObjTail es2) from rfl] at hps hV ⊢
        simp only [List.cons_append, List.append_assoc] at hps hV ⊢
        have hrs : ¬(rbrace = ' ') := by decide
        have hcr : ¬(',' = rbrace) := by decide
        simp only [dumpEntry_shape, List.cons_append, List.append_assoc] at hE2
        simp [hps, skipWs, skipWs_dump, hskE, hV, hE2, hrs, hcr]

mutual

theorem sizeJ_le_len (v : JVal) : sizeJ v ≤ (dumpVal v).length := by
  cases v with
  | null => decide
  | bool b => cases b <;> decide
  | num n =>
    have := sizeJ_pos (.num n)
    obtain ⟨c, cs, h, -⟩ := dumpVal_head (.num n)
    rw [h]
    simp only [sizeJ, List.length_cons]
    omega
  | str s =>
    simp [sizeJ, dumpVal]
  | arr xs =>
    cases xs with
    | nil => decide
    | cons x xs =>
      have h1 := sizeJ_le_len x
      have h2 := sizeL_le_len xs
      simp only [sizeJ, sizeL, dumpVal, List.length_cons, List.length_append,
        List.length_singleton]
      omega
  | obj kvs =>
    cases kvs with
    | nil => decide
    | cons e es =>
      obtain ⟨k, v⟩ := e
      have h1 := sizeJ_le_len v
      have h2 := sizeKL_le_len es
      simp only [sizeJ, sizeKL, dumpVal, dumpEntry, List.length_cons, List.length_append,
        List.length_singleton]
      omega

theorem sizeL_le_len (xs : List JVal) : sizeL xs ≤ (dumpListTail xs).length := by
  cases xs with
  | nil => decide
  | cons x xs =>
    have h1 := sizeJ_le_len x
    have h2 := sizeL_le_len xs
    simp only [sizeL, dumpListTail, List.length_cons, List.length_append]
    omega

theorem sizeKL_le_len (es : List (List Char × JVal)) : sizeKL es ≤ (dumpObjTail es).length := by
  cases es with
  | nil => decide
  | cons e es =>
    obtain ⟨k, v⟩ := e
    have h1 := sizeJ_le_len v
    have h2 := sizeKL_le_len es
    simp only [sizeKL, dumpObjTail, dumpEntry, List.length_cons, List.length_append]
    omega

end

/-- `json.loads` inverts `json.dumps` on every value (round-trip). -/
theorem loads_dumps (v : JVal) : loads (dumps v) = some v := by
  unfold loads dumps
  have hsk := skipWs_dump v []
  rw [List.append_nil] at hsk
  rw [hsk]
  have hp := (parse_dump ((dumpVal v).length + 1)).1 v []
    (by have := sizeJ_le_len v; omega) rfl
  rw [List.append_nil] at hp
  rw [hp]
  rfl

end Json

namespace Mind

/-- Python values stored in parameter dictionaries: strings, ints and
nested dicts are the shapes the handlers exchange. -/
inductive PyVal where
  | str (s : List Char)
  | int (n : Int)
  | dict (kvs : List (List Char × PyVal))

/-- Python exceptions raised along the modelled code paths. -/
inductive PyErr where
  | valueError (msg : String)
  | keyError (k : List Char)
  | typeError
  | attributeError
  | jsonDecodeError
  | notImplementedError
  | httpError (status : Nat)
  | exc (msg : String)
  deriving DecidableEq

/-- Dict lookup (first match; Python dict keys are unique). -/
def lookupKV : List (List Char × PyVal) → List Char → Option PyVal
  | [], _ => none
  | (k, v) :: rest, key => if k = key then some v else lookupKV rest key

/-- Modelled from the spec: `HandlerStatusResponse` from
`mindsdb.integrations.libs.response` (outside this fragment) carries a
success flag and an optional error message, initially `False` / absent. -/
structure StatusResponse where
  success : Bool
  error_message : Option PyErr

namespace Frappe

/-- Modelled from the spec: `FrappeClient` (module `frappe_client`, not
in this fragment) is a record bound to a domain and an OAuth token; its
constructor performs no I/O.  The `id` field tracks object identity. -/
structure FClient where
  id : Nat
  domain : List Char
  access_token : List Char
  deriving DecidableEq

/-- State of a `FrappeHandler` instance. -/
structure FrappeHandler where
  client : Option FClient
  is_connected : Bool
  domain : List Char
  access_token : List Char
  deriving DecidableEq

/-- Connection-data mapping for the document adapter: which of the two
recognised keys are present, and their values. -/
structure FrappeArgs where
  access_token : Option (List Char)
  domain : Option (List Char)

/-- `FrappeHandler.__init__`: validates connection data (access token
first, then domain) and prepares the not-yet-connected handler state.
No client is constructed and no network call is made here. -/
def init (args : FrappeArgs) : Except PyErr FrappeHandler :=
  match args.access_token with
  | none => .error (.valueError "\"access_token\" parameter required for authentication")
  | some tok =>
    match args.domain with
    | none => .error (.valueError "\"domain\" parameter required to connect to your Frappe instance")
    | some dom =>
      .ok { client := none, is_connected := false, domain := dom, access_token := tok }

/-- `FrappeHandler.connect`.  `ctr` is the next fresh client identity;
it increases exactly when a new `FrappeClient` is constructed.  Mirrors
the source: short-circuit when connected with a truthy client, rebuild
the client only when both credentials are truthy (non-empty), and set
`is_connected` unconditionally before returning. -/
def connect (h : FrappeHandler) (ctr : Nat) : Option FClient × FrappeHandler × Nat :=
  if h.is_connected = true ∧ h.client.isSome then (h.client, h, ctr)
  else
    let step : Option FClient × Nat :=
      if h.domain ≠ [] ∧ h.access_token ≠ [] then
        (some ⟨ctr, h.domain, h.access_token⟩, ctr + 1)
      else (h.client, ctr)
    (step.1, { h with client := step.1, is_connected := true }, step.2)

/-- Behavior of the external Frappe client and network. -/
structure FEnv where
  get_document : PyVal → PyVal → Json.JVal
  get_documents : PyVal → Option PyVal → Option PyVal → List Json.JVal
  post_document : PyVal → Json.JVal → Json.JVal
  ping : FClient → Except PyErr Unit

/-- Observable effects of an operation (network calls and connects). -/
inductive FEvent where
  | connect
  | ping
  | getDocument (doctype name : PyVal)
  | getDocuments (doctype : PyVal) (limit filters : Option PyVal)
  | postDocument (doctype : PyVal) (doc : Json.JVal)

/-- One dataframe row as built by `_document_to_dataframe_row`:
exactly two fields, the requested doctype and the re-encoded JSON. -/
structure DocRow where
  doctype : PyVal
  data : List Char

/-- `FrappeHandler._document_to_dataframe_row`. -/
def documentToDataframeRow (doctype : PyVal) (document : Json.JVal) : DocRow :=
  { doctype := doctype, data := Json.dumps document }

/-- Result of a dispatcher-level operation: outcome, new handler state,
next fresh client id, trace of effects. -/
def FRes (α : Type) : Type := Except PyErr α × FrappeHandler × Nat × List FEvent

/-- `FrappeHandler._get_document`. -/
def getDocumentOp (env : FEnv) (h : FrappeHandler) (ctr : Nat) (params : Option PyVal) :
    FRes (List DocRow) :=
  let (cli, h1, ctr1) := connect h ctr
  match params with
  | some (.dict kvs) =>
    match lookupKV kvs "doctype".data with
    | none => (.error (.keyError "doctype".data), h1, ctr1, [.connect])
    | some doctype =>
      match cli with
      | none => (.error .attributeError, h1, ctr1, [.connect])
      | some _ =>
        match lookupKV kvs "name".data with
        | none => (.error (.keyError "name".data), h1, ctr1, [.connect])
        | some name =>
          let document := env.get_document doctype name
          (.ok [documentToDataframeRow doctype document], h1, ctr1,
            [.connect, .getDocument doctype name])
  | _ => (.error .typeError, h1, ctr1, [.connect])

/-- `FrappeHandler._get_documents` (with the `limit` / `filters`
membership checks). -/
def getDocumentsOp (env : FEnv) (h : FrappeHandler) (ctr : Nat) (params : Option PyVal) :
    FRes (List DocRow) :=
  let (cli, h1, ctr1) := connect h ctr
  match params with
  | some (.dict kvs) =>
    match lookupKV kvs "doctype".data with
    | none => (.error (.keyError "doctype".data), h1, ctr1, [.connect])
    | some doctype =>
      let limit := lookupKV kvs "limit".data
      let filters := lookupKV kvs "filters".data
      match cli with
      | none => (.error .attributeError, h1, ctr1, [.connect])
      | some _ =>
        let documents := env.get_documents doctype limit filters
        (.ok (documents.map (documentToDataframeRow doctype)), h1, ctr1,
          [.connect, .getDocuments doctype limit filters])
  | _ => (.error .typeError, h1, ctr1, [.connect])

/-- `FrappeHandler._create_document`: decodes the JSON string payload,
submits it, re-encodes the returned document. -/
def createDocumentOp (env : FEnv) (h : FrappeHandler) (ctr : Nat) (params : Option PyVal) :
    FRes (List DocRow) :=
  let (cli, h1, ctr1) := connect h ctr
  match params with
  | some (.dict kvs) =>
    match lookupKV kvs "doctype".data with
    | none => (.error (.keyError "doctype".data), h1, ctr1, [.connect])
    | some doctype =>
      match cli with
      | none => (.error .attributeError, h1, ctr1, [.connect])
      | some _ =>
        match lookupKV kvs "data".data with
        | none => (.error (.keyError "data".data), h1, ctr1, [.connect])
        | some (.str s) =>
          match Json.loads s with
          | none => (.error .jsonDecodeError, h1, ctr1, [.connect])
          | some obj =>
            let newDoc := env.post_document doctype obj
            (.ok [documentToDataframeRow doctype newDoc], h1, ctr1,
              [.connect, .postDocument doctype obj])
        | some _ => (.error .typeError, h1, ctr1, [.connect])
  | _ => (.error .typeError, h1, ctr1, [.connect])

/-- `FrappeHandler.call_frappe_api`: closed three-way dispatch; any
other method name raises `NotImplementedError` before anything runs. -/
def call_frappe_api (env : FEnv) (h : FrappeHandler) (ctr : Nat)
    (method_name : Option String) (params : Option PyVal) : FRes (List DocRow) :=
  if method_name = some "get_documents" then getDocumentsOp env h ctr params
  else if method_name = some "get_document" then getDocumentOp env h ctr params
  else if method_name = some "create_document" then createDocumentOp env h ctr params
  else (.error .notImplementedError, h, ctr, [])

/-- `FrappeHandler.check_connection`: connect, ping, catch everything,
report a status object and synchronize `is_connected` with it. -/
def check_connection (env : FEnv) (h : FrappeHandler) (ctr : Nat) :
    StatusResponse × FrappeHandler × Nat × List FEvent :=
  let (cli, h1, ctr1) := connect h ctr
  match cli with
  | none =>
    ({ success := false, error_message := some .attributeError },
      { h1 with is_connected := false }, ctr1, [.connect])
  | some c =>
    match env.ping c with
    | .ok _ =>
      ({ success := true, error_message := none },
        { h1 with is_connected := true }, ctr1, [.connect, .ping])
    | .error e =>
      ({ success := false, error_message := some e },
        { h1 with is_connected := false }, ctr1, [.connect, .ping])

/-- `FrappeHandler.claim_expense(data)` executes
`call_frappe_api('create_document', **data)`: the payload dict is
unpacked as keyword arguments of `call_frappe_api`, so any key other
than `params` fails keyword binding with a `TypeError` before the
dispatcher body runs; the call result is discarded. -/
def claim_expense (env : FEnv) (h : FrappeHandler) (ctr : Nat)
    (data : List (List Char × PyVal)) :
    Except PyErr Unit × FrappeHandler × Nat × List FEvent :=
  if data.all (fun kv => decide (kv.1 = "params".data)) then
    let r := call_frappe_api env h ctr (some "create_document") (lookupKV data "params".data)
    (r.1.map (fun _ => ()), r.2.1, r.2.2.1, r.2.2.2)
  else (.error .typeError, h, ctr, [])

end Frappe

namespace Rocket

/-- Modelled from the spec: the `rocketchat_API` client object is a
record of the credentials and server URL it was constructed with; its
constructor may perform a login call and hence raise.  The `id` field
tracks object identity. -/
structure RCClient where
  id : Nat
  user : Option (List Char)
  password : Option (List Char)
  auth_token : Option (List Char)
  user_id : Option (List Char)
  server_url : List Char
  deriving DecidableEq

/-- State of a `RocketChatHandler` instance. -/
structure RocketChatHandler where
  username : Option (List Char)
  password : Option (List Char)
  auth_token : Option (List Char)
  auth_user_id : Option (List Char)
  domain : List Char
  client : Option RCClient
  is_connected : Bool
  deriving DecidableEq

/-- Connection-data mapping for the chat adapter: which of the five
recognised keys are present, and their values. -/
structure RCArgs where
  domain : Option (List Char)
  token : Option (List Char)
  user_id : Option (List Char)
  username : Option (List Char)
  password : Option (List Char)

/-- `RocketChatHandler.__init__`: requires `domain`; then takes the
`token`/`user_id` branch when both are present, else the
`username`/`password` branch, else raises.  No client is constructed
and no network call is made here. -/
def init (args : RCArgs) : Except PyErr RocketChatHandler :=
  match args.domain with
  | none => .error (.valueError "Must include Rocket Chat \"domain\" to read and write messages")
  | some dom =>
    if args.token.isSome ∧ args.user_id.isSome then
      .ok { username := none, password := none, auth_token := args.token,
            auth_user_id := args.user_id, domain := dom, client := none,
            is_connected := false }
    else if args.username.isSome ∧ args.password.isSome then
      .ok { username := args.username, password := args.password, auth_token := none,
            auth_user_id := none, domain := dom, client := none, is_connected := false }
    else
      .error (.valueError "Need \"token\" and \"user_id\", or \"username\" and \"password\" to connect to Rocket Chat")

/-- HTTP response object of the underlying `requests` session.
Modelled from the spec: `ok` means a non-error (sub-400) status, and
`raise_for_status` raises the transport error exactly on error
statuses; `json()` is the parsed body. -/
structure RCResponse where
  status : Nat
  body : Json.JVal

def RCResponse.ok (r : RCResponse) : Bool := r.status < 400

def RCResponse.raise_for_status (r : RCResponse) : Except PyErr Unit :=
  if 400 ≤ r.status then .error (.httpError r.status) else .ok ()

/-- Behavior of the external Rocket.Chat client library and network. -/
structure RCEnv where
  ctorFails : Option PyErr
  hasMethod : String → Bool
  invoke : String → List PyVal → RCResponse

/-- `RocketChatHandler.connect`: short-circuit when connected with a
non-`None` client; otherwise construct a `RocketChat` client (which
may raise, leaving the state untouched) and mark connected. -/
def connect (env : RCEnv) (h : RocketChatHandler) (ctr : Nat) :
    Except PyErr RCClient × RocketChatHandler × Nat :=
  if hc : h.is_connected = true ∧ h.client.isSome then
    (.ok (h.client.get hc.2), h, ctr)
  else
    match env.ctorFails with
    | some e => (.error e, h, ctr)
    | none =>
      let c : RCClient :=
        ⟨ctr, h.username, h.password, h.auth_token, h.auth_user_id, h.domain⟩
      (.ok c, { h with client := some c, is_connected := true }, ctr + 1)

/-- `RocketChatHandler.check_connection`: catches any connect failure;
only on failure does it force `is_connected := false`. -/
def check_connection (env : RCEnv) (h : RocketChatHandler) (ctr : Nat) :
    StatusResponse × RocketChatHandler × Nat :=
  match connect env h ctr with
  | (.ok _, h1, ctr1) => ({ success := true, error_message := none }, h1, ctr1)
  | (.error e, h1, ctr1) =>
    ({ success := false, error_message := some e }, { h1 with is_connected := false }, ctr1)

/-- `RocketChatHandler.call_api`: connect, resolve the method by name
on the client, invoke it, raise the transport error on non-success
statuses, otherwise return the parsed JSON body. -/
def call_api (env : RCEnv) (h : RocketChatHandler) (ctr : Nat)
    (method_name : String) (args : List PyVal) :
    Except PyErr Json.JVal × RocketChatHandler × Nat :=
  match connect env h ctr with
  | (.error e, h1, ctr1) => (.error e, h1, ctr1)
  | (.ok _, h1, ctr1) =>
    if env.hasMethod method_name then
      let resp := env.invoke method_name args
      if resp.ok then (.ok resp.body, h1, ctr1)
      else
        match resp.raise_for_status with
        | .error e => (.error e, h1, ctr1)
        | .ok _ => (.ok resp.body, h1, ctr1)
    else (.error .attributeError, h1, ctr1)

end Rocket

end Mind

open Mind Mind.Frappe Mind.Rocket

/-- C1: a connection-data mapping missing a required key (document
adapter: `access_token` or `domain`; chat adapter: `domain`, or neither
the complete token/user-id pair nor the complete username/password
pair) makes handler construction raise a `ValueError`, while with all
required keys present construction succeeds.  In the model, `init`
performs no effect at all (its type carries no environment and no event
trace), so no network call can occur during construction. -/
theorem claim_C1_construction_validation :
    (∀ args : FrappeArgs,
      ((args.access_token = none ∨ args.domain = none) →
        ∃ m, Mind.Frappe.init args = .error (.valueError m)) ∧
      (∀ tok dom, args.access_token = some tok → args.domain = some dom →
        Mind.Frappe.init args =
          .ok { client := none, is_connected := false, domain := dom,
                access_token := tok })) ∧
    (∀ args : RCArgs,
      ((args.domain = none ∨
        (¬(args.token.isSome = true ∧ args.user_id.isSome = true) ∧
         ¬(args.username.isSome = true ∧ args.password.isSome = true))) →
        ∃ m, Mind.Rocket.init args = .error (.valueError m)) ∧
      (args.domain.isSome = true →
        ((args.token.isSome = true ∧ args.user_id.isSome = true) ∨
         (args.username.isSome = true ∧ args.password.isSome = true)) →
        ∃ st, Mind.Rocket.init args = .ok st)) := by
  constructor
  · intro args
    constructor
    · intro hmiss
      rcases hmiss with h | h
      · exact ⟨_, by simp [Mind.Frappe.init, h] <;> rfl⟩
      · cases ht : args.access_token with
        | none => exact ⟨_, by simp [Mind.Frappe.init, ht] <;> rfl⟩
        | some tok => exact ⟨_, by simp [Mind.Frappe.init, ht, h] <;> rfl⟩
    · intro tok dom h1 h2
      simp [Mind.Frappe.init, h1, h2]
  · intro args
    constructor
    · intro hmiss
      rcases hmiss with h | ⟨h1, h2⟩
      · exact ⟨_, by simp [Mind.Rocket.init, h] <;> rfl⟩
      · cases hd : args.domain with
        | none => exact ⟨_, by simp [Mind.Rocket.init, hd] <;> rfl⟩
        | some dom => exact ⟨_, by simp [Mind.Rocket.init, hd, h1, h2] <;> rfl⟩
    · intro hdom hauth
      cases hd : args.domain with
      | none => rw [hd] at hdom; cases hdom
      | some dom =>
        rcases hauth with ⟨h1, h2⟩ | ⟨h1, h2⟩
        · exact ⟨_, by simp [Mind.Rocket.init, hd, h1, h2] <;> rfl⟩
        · by_cases htok : args.token.isSome = true ∧ args.user_id.isSome = true
          · exact ⟨_, by simp [Mind.Rocket.init, hd, htok.1, htok.2] <;> rfl⟩
          · exact ⟨_, by simp [Mind.Rocket.init, hd, htok, h1, h2] <;> rfl⟩

/-- C1 witness: concrete instances — a mapping missing `access_token`
is rejected by the document adapter, and a complete chat mapping is
accepted. -/
theorem claim_C1_construction_validation_witness :
    (∃ m, Mind.Frappe.init ⟨none, some ['d']⟩ = .error (.valueError m)) ∧
    (∃ st, Mind.Rocket.init ⟨some ['d'], some ['t'], some ['u'], none, none⟩ = .ok st) :=
  ⟨(claim_C1_construction_validation.1 ⟨none, some ['d']⟩).1 (Or.inl rfl),
   (claim_C1_construction_validation.2 ⟨some ['d'], some ['t'], some ['u'], none, none⟩).2
     (by decide) (Or.inl (by decide))⟩

/-- C3: the document dispatcher is a closed three-way table: any
method name outside `get_documents` / `get_document` /
`create_document` (including `None`) fails with `NotImplementedError`,
leaves the handler state and the fresh-client counter unchanged, and
performs no effect (empty trace — in particular `connect` is never
invoked); each of the three supported names invokes exactly the
corresponding operation. -/
theorem claim_C3_dispatch_closed (env : FEnv) (h : FrappeHandler) (ctr : Nat)
    (params : Option PyVal) :
    (∀ mname : Option String,
      mname ≠ some "get_documents" → mname ≠ some "get_document" →
      mname ≠ some "create_document" →
      call_frappe_api env h ctr mname params =
        (.error .notImplementedError, h, ctr, [])) ∧
    (call_frappe_api env h ctr (some "get_documents") params =
      getDocumentsOp env h ctr params) ∧
    (call_frappe_api env h ctr (some "get_document") params =
      getDocumentOp env h ctr params) ∧
    (call_frappe_api env h ctr (some "create_document") params =
      createDocumentOp env h ctr params) := by
  refine ⟨?_, ?_, ?_, ?_⟩
  · intro mname h1 h2 h3
    simp [call_frappe_api, h1, h2, h3]
  · simp [call_frappe_api]
  · simp [call_frappe_api]
  · simp [call_frappe_api]

/-- C3 witness: the unknown method name `post_document` is rejected
with an unchanged state and an empty trace at a concrete handler. -/
theorem claim_C3_dispatch_closed_witness :
    call_frappe_api
        ⟨fun _ _ => .null, fun _ _ _ => [], fun _ d => d, fun _ => .ok ()⟩
        ⟨none, false, ['d'], ['t']⟩ 0 (some "post_document") none =
      (.error .notImplementedError, ⟨none, false, ['d'], ['t']⟩, 0, []) :=
  (claim_C3_dispatch_closed _ _ _ _).1 (some "post_document")
    (by decide) (by decide) (by decide)

/-- C6: a chat-adapter mapping containing `domain` plus both complete
auth pairs constructs successfully, and the token pair wins:
`auth_token` / `auth_user_id` are taken from the mapping while
`username` / `password` stay `None`. -/
theorem claim_C6_token_precedence (args : RCArgs) (dom tok uid un pw : List Char)
    (h1 : args.domain = some dom) (h2 : args.token = some tok)
    (h3 : args.user_id = some uid) (h4 : args.username = some un)
    (h5 : args.password = some pw) :
    Mind.Rocket.init args =
      .ok { username := none, password := none, auth_token := some tok,
            auth_user_id := some uid, domain := dom, client := none,
            is_connected := false } := by
  simp [Mind.Rocket.init, h1, h2, h3]

/-- C6 witness: concrete mapping carrying both auth pairs. -/
theorem claim_C6_token_precedence_witness :
    Mind.Rocket.init ⟨some ['d'], some ['t'], some ['i'], some ['u'], some ['p']⟩ =
      .ok { username := none, password := none, auth_token := some ['t'],
            auth_user_id := some ['i'], domain := ['d'], client := none,
            is_connected := false } :=
  claim_C6_token_precedence _ ['d'] ['t'] ['i'] ['u'] ['p'] rfl rfl rfl rfl rfl

/-- C10: the document adapter's `connect` sets `is_connected := true`
unconditionally; when the stored `domain` or `access_token` is falsy
(empty string) and no client was stored, no client is constructed (the
identity counter does not advance), `connect` returns `None`, and yet
the handler reports itself connected — so `is_connected` does not
imply that a client exists. -/
theorem claim_C10_connect_flag_unconditional :
    (∀ (h : FrappeHandler) (ctr : Nat),
      ((Mind.Frappe.connect h ctr).2.1).is_connected = true) ∧
    (∀ (h : FrappeHandler) (ctr : Nat),
      h.client = none → (h.domain = [] ∨ h.access_token = []) →
      Mind.Frappe.connect h ctr =
        (none, { h with client := none, is_connected := true }, ctr)) := by
  constructor
  · intro h ctr
    unfold Mind.Frappe.connect
    by_cases hc : h.is_connected = true ∧ h.client.isSome = true
    · rw [if_pos hc]
      exact hc.1
    · rw [if_neg hc]
  · intro h ctr hcl hfalsy
    unfold Mind.Frappe.connect
    have hguard : ¬(h.is_connected = true ∧ h.client.isSome = true) := by
      intro hcon
      rw [hcl] at hcon
      cases hcon.2
    rw [if_neg hguard]
    have hcred : ¬(h.domain ≠ [] ∧ h.access_token ≠ []) := by
      rcases hfalsy with hf | hf <;> simp [hf]
    simp [if_neg hcred, hcl]

/-- C10 witness: empty access token with no stored client — connected
flag raised, `None` returned, counter unchanged. -/
theorem claim_C10_connect_flag_unconditional_witness :
    Mind.Frappe.connect ⟨none, false, ['d'], []⟩ 0 =
      (none, ⟨none, true, ['d'], []⟩, 0) :=
  claim_C10_connect_flag_unconditional.2 ⟨none, false, ['d'], []⟩ 0 rfl (Or.inr rfl)

theorem frappe_connect_some (h : FrappeHandler) (ctr : Nat) (c : FClient)
    (h1 : FrappeHandler) (ctr1 : Nat)
    (hc : Mind.Frappe.connect h ctr = (some c, h1, ctr1)) :
    h1.client = some c ∧ h1.is_connected = true := by
  unfold Mind.Frappe.connect at hc
  by_cases hg : h.is_connected = true ∧ h.client.isSome = true
  · rw [if_pos hg] at hc
    simp only [Prod.mk.injEq] at hc
    obtain ⟨hcl, hh, -⟩ := hc
    subst hh
    exact ⟨hcl, hg.1⟩
  · rw [if_neg hg] at hc
    simp only [Prod.mk.injEq] at hc
    obtain ⟨hcl, hh, -⟩ := hc
    subst hh
    exact ⟨hcl, rfl⟩

theorem rc_connect_ok (env : RCEnv) (h : RocketChatHandler) (ctr : Nat) (c : RCClient)
    (h1 : RocketChatHandler) (ctr1 : Nat)
    (hc : Mind.Rocket.connect env h ctr = (.ok c, h1, ctr1)) :
    h1.client = some c ∧ h1.is_connected = true := by
  unfold Mind.Rocket.connect at hc
  split at hc
  · rename_i hg
    simp only [Prod.mk.injEq, Except.ok.injEq] at hc
    obtain ⟨hcc, hh, -⟩ := hc
    subst hh
    refine ⟨?_, hg.1⟩
    rw [← hcc, Option.some_get]
  · cases he : env.ctorFails with
    | some e =>
      rw [he] at hc
      simp at hc
    | none =>
      rw [he] at hc
      simp only [Prod.mk.injEq, Except.ok.injEq] at hc
      obtain ⟨hcc, hh, -⟩ := hc
      subst hh
      subst hcc
      exact ⟨rfl, rfl⟩

/-- C4: for both adapters and every behavior of the underlying client
construction / ping (including raising), `check_connection` returns a
status object (in the model it is total by construction, so it can
never raise); `success = false` implies the error message is present;
and on return the `is_connected` flag equals the outcome. -/
theorem claim_C4_check_connection_contract :
    (∀ (env : FEnv) (h : FrappeHandler) (ctr : Nat),
      ((Mind.Frappe.check_connection env h ctr).1.success = false →
        ((Mind.Frappe.check_connection env h ctr).1.error_message).isSome = true) ∧
      ((Mind.Frappe.check_connection env h ctr).2.1.is_connected =
        (Mind.Frappe.check_connection env h ctr).1.success)) ∧
    (∀ (env : RCEnv) (h : RocketChatHandler) (ctr : Nat),
      ((Mind.Rocket.check_connection env h ctr).1.success = false →
        ((Mind.Rocket.check_connection env h ctr).1.error_message).isSome = true) ∧
      ((Mind.Rocket.check_connection env h ctr).2.1.is_connected =
        (Mind.Rocket.check_connection env h ctr).1.success)) := by
  constructor
  · intro env h ctr
    unfold Mind.Frappe.check_connection
    rcases hc : Mind.Frappe.connect h ctr with ⟨cli, h1, ctr1⟩
    cases cli with
    | none => simp [hc]
    | some c =>
      cases hp : env.ping c with
      | ok u => simp [hc, hp]
      | error e => simp [hc, hp]
  · intro env h ctr
    unfold Mind.Rocket.check_connection
    rcases hc : Mind.Rocket.connect env h ctr with ⟨res, h1, ctr1⟩
    cases res with
    | error e => simp [hc]
    | ok c =>
      have hflag := rc_connect_ok env h ctr c h1 ctr1 hc
      simp [hc, hflag.2]

/-- C4 witness: with an unreachable Frappe instance (ping raises), the
returned status carries an error message. -/
theorem claim_C4_check_connection_contract_witness :
    ((Mind.Frappe.check_connection
        ⟨fun _ _ => .null, fun _ _ _ => [], fun _ d => d, fun _ => .error (.exc "refused")⟩
        ⟨none, false, ['d'], ['t']⟩ 0).1.error_message).isSome = true :=
  ((claim_C4_check_connection_contract.1 _ _ _).1) (by rfl)

/-- C5: for both adapters, after a `connect` that returned a client, a
second `connect` short-circuits: it returns the identical memoized
client, leaves the state untouched and constructs nothing (the
fresh-identity counter does not advance). -/
theorem claim_C5_connect_memoized :
    (∀ (h : FrappeHandler) (ctr : Nat) (c : FClient) (h1 : FrappeHandler) (ctr1 : Nat),
      Mind.Frappe.connect h ctr = (some c, h1, ctr1) →
      Mind.Frappe.connect h1 ctr1 = (some c, h1, ctr1)) ∧
    (∀ (env : RCEnv) (h : RocketChatHandler) (ctr : Nat) (c : RCClient)
      (h1 : RocketChatHandler) (ctr1 : Nat),
      Mind.Rocket.connect env h ctr = (.ok c, h1, ctr1) →
      Mind.Rocket.connect env h1 ctr1 = (.ok c, h1, ctr1)) := by
  constructor
  · intro h ctr c h1 ctr1 hc
    obtain ⟨hcl, hfl⟩ := frappe_connect_some h ctr c h1 ctr1 hc
    unfold Mind.Frappe.connect
    rw [if_pos ⟨hfl, by rw [hcl]; rfl⟩, hcl]
  · intro env h ctr c h1 ctr1 hc
    obtain ⟨hcl, hfl⟩ := rc_connect_ok env h ctr c h1 ctr1 hc
    unfold Mind.Rocket.connect
    rw [dif_pos ⟨hfl, by rw [hcl]; rfl⟩]
    simp [hcl]

/-- C5 witness: a freshly connected document handler; the second
`connect` returns the same client with the counter unchanged. -/
theorem claim_C5_connect_memoized_witness :
    Mind.Frappe.connect ⟨some ⟨0, ['d'], ['t']⟩, true, ['d'], ['t']⟩ 1 =
      (some ⟨0, ['d'], ['t']⟩, ⟨some ⟨0, ['d'], ['t']⟩, true, ['d'], ['t']⟩, 1) :=
  claim_C5_connect_memoized.1 ⟨none, false, ['d'], ['t']⟩ 0 ⟨0, ['d'], ['t']⟩ _ _ rfl

/-- C2: `create_document` on a params dict with a `doctype` key and a
`data` key holding a JSON-encoded string submits exactly the decoded
object to the client's `post_document` (visible in the trace), and
returns a single row whose `data` field re-decodes to precisely the
document the client returned. -/
theorem claim_C2_create_document_roundtrip
    (env : FEnv) (h : FrappeHandler) (ctr : Nat)
    (kvs : List (List Char × PyVal)) (dv : PyVal) (obj : Json.JVal)
    (c : FClient) (h1 : FrappeHandler) (ctr1 : Nat)
    (hdt : lookupKV kvs "doctype".data = some dv)
    (hdata : lookupKV kvs "data".data = some (.str (Json.dumps obj)))
    (hconn : Mind.Frappe.connect h ctr = (some c, h1, ctr1)) :
    createDocumentOp env h ctr (some (.dict kvs)) =
      (.ok [{ doctype := dv, data := Json.dumps (env.post_document dv obj) }], h1, ctr1,
        [.connect, .postDocument dv obj]) ∧
    Json.loads (Json.dumps obj) = some obj ∧
    Json.loads (Json.dumps (env.post_document dv obj)) =
      some (env.post_document dv obj) := by
  refine ⟨?_, Json.loads_dumps obj, Json.loads_dumps _⟩
  simp [createDocumentOp, hconn, hdt, hdata, Json.loads_dumps, documentToDataframeRow]

/-- C2 witness: a concrete expense-like object round-trips through a
client that wraps the submitted document in a fresh field. -/
theorem claim_C2_create_document_roundtrip_witness :
    (createDocumentOp
        ⟨fun _ _ => .null, fun _ _ _ => [], fun _ d => Json.JVal.obj [(['n'], d)],
         fun _ => .ok ()⟩
        ⟨none, false, ['d'], ['t']⟩ 0
        (some (.dict [("doctype".data, .str ['E']),
          ("data".data, .str (Json.dumps (Json.JVal.obj [(['a'], Json.JVal.num 1)])))]))).1 =
      .ok [{ doctype := PyVal.str ['E'],
             data := Json.dumps
               (Json.JVal.obj [(['n'], Json.JVal.obj [(['a'], Json.JVal.num 1)])]) }] := by
  rw [(claim_C2_create_document_roundtrip
    ⟨fun _ _ => .null, fun _ _ _ => [], fun _ d => Json.JVal.obj [(['n'], d)],
     fun _ => .ok ()⟩
    ⟨none, false, ['d'], ['t']⟩ 0
    [("doctype".data, .str ['E']),
     ("data".data, .str (Json.dumps (Json.JVal.obj [(['a'], Json.JVal.num 1)])))]
    (.str ['E']) (Json.JVal.obj [(['a'], Json.JVal.num 1)])
    ⟨0, ['d'], ['t']⟩ ⟨some ⟨0, ['d'], ['t']⟩, true, ['d'], ['t']⟩ 1
    rfl rfl rfl).1]

/-- C7: `claim_expense` executes `call_frappe_api('create_document',
**data)`, unpacking its payload as keyword arguments; on the payload
shape its own `back_office_config` documents (a dict with `doctype`
and `data` columns) keyword binding fails with `TypeError` before the
dispatcher runs: the state is unchanged and the trace is empty, so
`create_document` is never invoked and nothing is submitted. -/
theorem claim_C7_claim_expense_binding :
    ∀ (env : FEnv) (h : FrappeHandler) (ctr : Nat) (dt d : PyVal),
      claim_expense env h ctr [("doctype".data, dt), ("data".data, d)] =
        (.error .typeError, h, ctr, []) :=
  fun _ _ _ _ _ => rfl

/-- C8: the chat adapter's `call_api`, on a resolvable method name with
a working connection, raises the transport error exactly when the
response status is non-success, and otherwise returns the parsed JSON
body; a non-success response never produces a normal return. -/
theorem claim_C8_call_api_status
    (env : RCEnv) (h : RocketChatHandler) (ctr : Nat) (name : String) (args : List PyVal)
    (c : RCClient) (h1 : RocketChatHandler) (ctr1 : Nat)
    (hm : env.hasMethod name = true)
    (hconn : Mind.Rocket.connect env h ctr = (.ok c, h1, ctr1)) :
    ((env.invoke name args).ok = false →
      call_api env h ctr name args =
        (.error (.httpError (env.invoke name args).status), h1, ctr1)) ∧
    ((env.invoke name args).ok = true →
      call_api env h ctr name args = (.ok (env.invoke name args).body, h1, ctr1)) := by
  constructor
  · intro hok
    have hst : 400 ≤ (env.invoke name args).status := by
      simpa [RCResponse.ok] using hok
    simp [call_api, hconn, hm, hok, RCResponse.raise_for_status, hst]
  · intro hok
    simp [call_api, hconn, hm, hok]

/-- C8 witness: a 500 response surfaces as a raised transport error. -/
theorem claim_C8_call_api_status_witness :
    call_api ⟨none, fun _ => true, fun _ _ => ⟨500, .null⟩⟩
        ⟨none, none, some ['t'], some ['u'], ['d'], none, false⟩ 0 "channels_list" [] =
      (.error (.httpError 500),
       ⟨none, none, some ['t'], some ['u'], ['d'],
        some ⟨0, none, none, some ['t'], some ['u'], ['d']⟩, true⟩, 1) :=
  (claim_C8_call_api_status
    ⟨none, fun _ => true, fun _ _ => ⟨500, .null⟩⟩
    ⟨none, none, some ['t'], some ['u'], ['d'], none, false⟩ 0 "channels_list" []
    ⟨0, none, none, some ['t'], some ['u'], ['d']⟩
    ⟨none, none, some ['t'], some ['u'], ['d'],
     some ⟨0, none, none, some ['t'], some ['u'], ['d']⟩, true⟩ 1
    rfl rfl).1 rfl

/-- C9: every row any of the three document operations builds is
exactly the two-field record `doctype` (the requested doctype value,
unchanged) and `data` (the full document re-encoded with
`json.dumps`); multi-document results are the one-to-one map of that
row builder with no projection or decomposition. -/
theorem claim_C9_row_shape
    (env : FEnv) (h : FrappeHandler) (ctr : Nat)
    (kvs : List (List Char × PyVal)) (dv : PyVal)
    (c : FClient) (h1 : FrappeHandler) (ctr1 : Nat)
    (hdt : lookupKV kvs "doctype".data = some dv)
    (hconn : Mind.Frappe.connect h ctr = (some c, h1, ctr1)) :
    (∀ nv, lookupKV kvs "name".data = some nv →
      (getDocumentOp env h ctr (some (.dict kvs))).1 =
        .ok [{ doctype := dv, data := Json.dumps (env.get_document dv nv) }]) ∧
    ((getDocumentsOp env h ctr (some (.dict kvs))).1 =
      .ok ((env.get_documents dv (lookupKV kvs "limit".data)
          (lookupKV kvs "filters".data)).map
        (fun d => { doctype := dv, data := Json.dumps d }))) ∧
    (∀ s obj, lookupKV kvs "data".data = some (.str s) → Json.loads s = some obj →
      (createDocumentOp env h ctr (some (.dict kvs))).1 =
        .ok [{ doctype := dv, data := Json.dumps (env.post_document dv obj) }]) := by
  refine ⟨?_, ?_, ?_⟩
  · intro nv hnm
    simp [getDocumentOp, hconn, hdt, hnm, documentToDataframeRow]
  · simp [getDocumentsOp, hconn, hdt, documentToDataframeRow]
  · intro s obj hdata hloads
    simp [createDocumentOp, hconn, hdt, hdata, hloads, documentToDataframeRow]

/-- C9 witness: a two-document listing maps to exactly two
doctype/data rows. -/
theorem claim_C9_row_shape_witness :
    (getDocumentsOp
        ⟨fun _ _ => .null, fun _ _ _ => [Json.JVal.obj [(['a'], Json.JVal.num 1)], Json.JVal.null],
         fun _ d => d, fun _ => .ok ()⟩
        ⟨none, false, ['d'], ['t']⟩ 0
        (some (.dict [("doctype".data, .str ['E'])]))).1 =
      .ok [{ doctype := PyVal.str ['E'],
             data := Json.dumps (Json.JVal.obj [(['a'], Json.JVal.num 1)]) },
           { doctype := PyVal.str ['E'], data := Json.dumps Json.JVal.null }] := by
  rw [(claim_C9_row_shape
    ⟨fun _ _ => .null, fun _ _ _ => [Json.JVal.obj [(['a'], Json.JVal.num 1)], Json.JVal.null],
     fun _ d => d, fun _ => .ok ()⟩
    ⟨none, false, ['d'], ['t']⟩ 0
    [("doctype".data, .str ['E'])] (.str ['E'])
    ⟨0, ['d'], ['t']⟩ ⟨some ⟨0, ['d'], ['t']⟩, true, ['d'], ['t']⟩ 1
    rfl rfl).2.1]
  rfl
